import Mathlib

/-!
# Verification of the FerretDB/wire BSON and wire-protocol codec

A shallow embedding of the wire repository's BSON codec (package `wirebson`)
and wire-protocol framing (package `wire`), with theorems checking the
natural-language specification against the code.

Bytes are modelled as `List Nat` (each entry a byte value 0..255); Go strings
are modelled as their byte sequences (`GoString = List Nat`), since the codec
treats names and identifiers as raw bytes.  Machine integers are modelled as
`Nat`/`Int` with explicit two's-complement reinterpretation where the source
converts unsigned to signed.
-/

/-- Byte sequences (`[]byte` in the source). -/
abbrev Bytes := List Nat

/-- Go strings, modelled as their byte sequences. -/
abbrev GoString := List Nat

/-- Little-endian value of a byte list (first byte is least significant). -/
def leNat (bs : Bytes) : Nat := bs.foldr (fun b acc => b % 256 + 256 * acc) 0

/-- Write `v` as `n` little-endian bytes (`binary.LittleEndian.PutUintN`). -/
def putLE : Nat → Nat → Bytes
  | 0, _ => []
  | n + 1, v => (v % 256) :: putLE n (v / 256)

/-- Reinterpret an unsigned 32-bit value as Go `int32`. -/
def toInt32 (u : Nat) : Int :=
  if u % 2 ^ 32 < 2 ^ 31 then ((u % 2 ^ 32 : Nat) : Int) else ((u % 2 ^ 32 : Nat) : Int) - 2 ^ 32

/-- Reinterpret an unsigned 64-bit value as Go `int64`. -/
def toInt64 (u : Nat) : Int :=
  if u % 2 ^ 64 < 2 ^ 63 then ((u % 2 ^ 64 : Nat) : Int) else ((u % 2 ^ 64 : Nat) : Int) - 2 ^ 64

/-- Byte sequence of a Lean string literal (ASCII), for concrete Go strings. -/
def gostr (s : String) : GoString := s.data.map Char.toNat

/-- Go `strconv.Itoa` for natural numbers, as a byte sequence. -/
def itoa (n : Nat) : GoString := (Nat.toDigits 10 n).map Char.toNat

/-- Errors produced by the decoding side, mirroring how the source tags them.
`shortInput` wraps `ErrDecodeShortInput`; `invalidInput`,
`invalidUnsupportedTag` and `invalidUnexpectedTag` wrap `ErrDecodeInvalidInput`;
`nonScalarTag`, `invalidArrayIndex` and `otherError` are plain `lazyerrors`
errors that wrap no sentinel. -/
inductive DecodeErr where
  | shortInput
  | invalidInput
  | invalidUnsupportedTag (t : Nat)
  | invalidUnexpectedTag (t : Nat)
  | nonScalarTag (t : Nat)
  | invalidArrayIndex (name : GoString)
  | otherError
deriving DecidableEq, Repr

/-- `errors.Is(err, ErrDecodeInvalidInput)` for the error model: true exactly
for the variants that the source produces with `%w`-wrapping of
`ErrDecodeInvalidInput`. -/
def DecodeErr.isInvalidInput : DecodeErr → Bool
  | .invalidInput => true
  | .invalidUnsupportedTag _ => true
  | .invalidUnexpectedTag _ => true
  | _ => false

/-- `decodeMode` from `wirebson/decode.go`: shallow leaves nested composites
as raw byte subslices, deep decodes them recursively. -/
inductive DecodeMode where
  | shallow
  | deep
deriving DecidableEq, Repr

/-! ## BSON tags

Modelled from the spec: the generated `tag` constant definitions
(`stringers.go` and the `tag` enum source) are not under `src/`; §4.D and
§6.2 of the spec give byte values for each tag name used by
`wirebson/decode.go` and `wirebson/encode.go`. -/

def tagFloat64 : Nat := 0x01
def tagString : Nat := 0x02
def tagDocument : Nat := 0x03
def tagArray : Nat := 0x04
def tagBinary : Nat := 0x05
def tagUndefined : Nat := 0x06
def tagObjectID : Nat := 0x07
def tagBool : Nat := 0x08
def tagTime : Nat := 0x09
def tagNull : Nat := 0x0A
def tagRegex : Nat := 0x0B
def tagDBPointer : Nat := 0x0C
def tagJavaScript : Nat := 0x0D
def tagSymbol : Nat := 0x0E
def tagJavaScriptScope : Nat := 0x0F
def tagInt32 : Nat := 0x10
def tagTimestamp : Nat := 0x11
def tagInt64 : Nat := 0x12
def tagDecimal128 : Nat := 0x13
def tagMinKey : Nat := 0xFF
def tagMaxKey : Nat := 0x7F

/-- A Go `any` value in the BSON value universe of `wirebson/bson.go`
(plus `invalid`, standing for any Go value outside that universe).
`doc`/`arr` carry the fields/elements and the `frozen` flag of the
`Document`/`Array` structs; `rawDoc`/`rawArr` are `RawDocument`/`RawArray`
byte slices; `float` carries the IEEE-754 bit pattern (`math.Float64bits`);
`timeVal` carries UNIX milliseconds (`time.UnixMilli`); `timestamp` is the
opaque `uint64`; `decimal128` carries the `H` and `L` halves. -/
inductive GoValue where
  | doc (fields : List (GoString × GoValue)) (frozen : Bool)
  | arr (values : List GoValue) (frozen : Bool)
  | rawDoc (b : Bytes)
  | rawArr (b : Bytes)
  | float (bits : Nat)
  | str (s : GoString)
  | binData (subtype : Nat) (payload : Bytes)
  | undefined
  | objectID (b : Bytes)
  | boolVal (v : Bool)
  | timeVal (msec : Int)
  | null
  | regex (pattern options : GoString)
  | int32 (v : Int)
  | timestamp (v : Nat)
  | int64 (v : Int)
  | decimal128 (h l : Nat)
  | invalid (tname : String)

/-- The `Document` struct from `wirebson/document.go`: a list of
(name, value) fields plus the `frozen` flag. -/
structure Document where
  fields : List (GoString × GoValue)
  frozen : Bool

/-- `validBSONType` from `wirebson/bson.go`: every value of the BSON universe
(including `UndefinedType` and the raw composites) is valid; anything else is
an "invalid BSON type" error.  Modelled as a Bool (`true` = nil error). -/
def validBSONType : GoValue → Bool
  | .invalid _ => false
  | _ => true

/-! ## Scalar codecs (sizes and decoders) -/

/-- `SizeCString` (`bsonproto/cstring.go`): `len(v) + 1`. -/
def SizeCString (v : GoString) : Nat := v.length + 1

/-- `DecodeCString`: at least one byte, find the first 0 byte, return the
bytes before it; no 0 byte is an invalid-input error. -/
def DecodeCString (b : Bytes) : Except DecodeErr GoString :=
  if b.length < 1 then .error .shortInput
  else
    match b.findIdx? (· == 0) with
    | none => .error .invalidInput
    | some i => .ok (b.take i)

/-- `sizeString` (`wirebson/string.go`): `len(v) + 5`. -/
def sizeString (v : GoString) : Nat := v.length + 5

/-- `decodeString` (`wirebson/string.go`). -/
def decodeString (b : Bytes) : Except DecodeErr GoString :=
  if b.length < 5 then .error .shortInput
  else
    let i := leNat (b.take 4)
    if i < 1 then .error .invalidInput
    else if b.length < 4 + i then .error .shortInput
    else if (b.drop (4 + i - 1)).headD 1 ≠ 0 then .error .invalidInput
    else .ok ((b.drop 4).take (i - 1))

/-- `sizeBinary` (`wirebson/binary.go`): `len(v.B) + 5`. -/
def sizeBinary (_subtype : Nat) (payload : Bytes) : Nat := payload.length + 5

/-- `decodeBinary` (`wirebson/binary.go`). -/
def decodeBinary (b : Bytes) : Except DecodeErr (Nat × Bytes) :=
  if b.length < 5 then .error .shortInput
  else
    let i := leNat (b.take 4)
    if b.length < 5 + i then .error .shortInput
    else .ok ((b.drop 4).headD 0, (b.drop 5).take i)

/-- `decodeObjectID` (12 raw bytes). -/
def decodeObjectID (b : Bytes) : Except DecodeErr Bytes :=
  if b.length < 12 then .error .shortInput
  else .ok (b.take 12)

/-- `DecodeBool` (`bsonproto/bool.go`): one byte, `0x00` or `0x01`;
anything else is an invalid-input error. -/
def decodeBool (b : Bytes) : Except DecodeErr Bool :=
  match b with
  | [] => .error .shortInput
  | v :: _ =>
    if v = 0 then .ok false
    else if v = 1 then .ok true
    else .error .invalidInput

/-- `decodeTime`: `int64` little-endian UNIX milliseconds. -/
def decodeTime (b : Bytes) : Except DecodeErr Int :=
  if b.length < 8 then .error .shortInput
  else .ok (toInt64 (leNat (b.take 8)))

/-- `decodeRegex`: two consecutive NUL-terminated strings; missing
terminators are a short-input error in the source. -/
def decodeRegex (b : Bytes) : Except DecodeErr (GoString × GoString) :=
  if b.length < 2 then .error .shortInput
  else
    match b.findIdx? (· == 0) with
    | none => .error .shortInput
    | some p =>
      match (b.drop (p + 1)).findIdx? (· == 0) with
      | none => .error .shortInput
      | some q => .ok (b.take p, (b.drop (p + 1)).take q)

/-- `sizeRegex`: `len(pattern) + len(options) + 2`. -/
def sizeRegex (pattern options : GoString) : Nat := pattern.length + options.length + 2

/-- `decodeInt32`: 4 little-endian bytes as `int32`. -/
def decodeInt32 (b : Bytes) : Except DecodeErr Int :=
  if b.length < 4 then .error .shortInput
  else .ok (toInt32 (leNat (b.take 4)))

/-- `decodeInt64`: 8 little-endian bytes as `int64`. -/
def decodeInt64 (b : Bytes) : Except DecodeErr Int :=
  if b.length < 8 then .error .shortInput
  else .ok (toInt64 (leNat (b.take 8)))

/-- `decodeTimestamp`: 8 little-endian bytes as opaque `uint64`. -/
def decodeTimestamp (b : Bytes) : Except DecodeErr Nat :=
  if b.length < 8 then .error .shortInput
  else .ok (leNat (b.take 8))

/-- `decodeFloat64`: 8 little-endian bytes reinterpreted as an IEEE-754 bit
pattern (`math.Float64frombits`); the value is kept as its bit pattern. -/
def decodeFloat64 (b : Bytes) : Except DecodeErr Nat :=
  if b.length < 8 then .error .shortInput
  else .ok (leNat (b.take 8))

/-- `decodeDecimal128`: low 8 bytes then high 8 bytes, little-endian. -/
def decodeDecimal128 (b : Bytes) : Except DecodeErr (Nat × Nat) :=
  if b.length < 16 then .error .shortInput
  else .ok (leNat ((b.drop 8).take 8), leNat (b.take 8))

/-- `decodeScalarField` from `wirebson/decode.go`: dispatch on the tag byte.
Returns the decoded value and the number of value bytes consumed.
`tagUndefined` succeeds with the `Undefined` scalar and zero size;
`tagDBPointer`, `tagJavaScript`, `tagSymbol`, `tagJavaScriptScope`,
`tagMinKey` and `tagMaxKey` are "unsupported" invalid-input errors;
any unrecognized tag is an "unexpected" invalid-input error. -/
def decodeScalarField (t : Nat) (b : Bytes) : Except DecodeErr (GoValue × Nat) :=
  if t = tagDocument ∨ t = tagArray then .error (.nonScalarTag t)
  else if t = tagFloat64 then (decodeFloat64 b).map fun f => (.float f, 8)
  else if t = tagString then (decodeString b).map fun s => (.str s, sizeString s)
  else if t = tagBinary then (decodeBinary b).map fun p => (.binData p.1 p.2, sizeBinary p.1 p.2)
  else if t = tagUndefined then .ok (.undefined, 0)
  else if t = tagObjectID then (decodeObjectID b).map fun o => (.objectID o, 12)
  else if t = tagBool then (decodeBool b).map fun v => (.boolVal v, 1)
  else if t = tagTime then (decodeTime b).map fun m => (.timeVal m, 8)
  else if t = tagNull then .ok (.null, 0)
  else if t = tagRegex then (decodeRegex b).map fun r => (.regex r.1 r.2, sizeRegex r.1 r.2)
  else if t = tagDBPointer ∨ t = tagJavaScript ∨ t = tagSymbol ∨ t = tagJavaScriptScope then
    .error (.invalidUnsupportedTag t)
  else if t = tagInt32 then (decodeInt32 b).map fun v => (.int32 v, 4)
  else if t = tagTimestamp then (decodeTimestamp b).map fun v => (.timestamp v, 8)
  else if t = tagInt64 then (decodeInt64 b).map fun v => (.int64 v, 8)
  else if t = tagDecimal128 then (decodeDecimal128 b).map fun p => (.decimal128 p.1 p.2, 16)
  else if t = tagMinKey ∨ t = tagMaxKey then .error (.invalidUnsupportedTag t)
  else .error (.invalidUnexpectedTag t)

/-- `FindRaw` from `wirebson/decode.go`: validate the minimal framing of a
BSON composite at the start of `b` and return its declared length. -/
def FindRaw (b : Bytes) : Except DecodeErr Nat :=
  if b.length < 5 then .error .shortInput
  else
    let dl := leNat (b.take 4)
    if dl < 5 then .error .invalidInput
    else if b.length < dl then .error .shortInput
    else if (b.drop (dl - 1)).headD 1 ≠ 0 then .error .invalidInput
    else .ok dl

/-- The index-enforcement loop of `RawArray.decode`: the `i`-th field name
must equal `strconv.Itoa(i)`, otherwise a plain "invalid array index" error
(no sentinel wrapped) is returned; on success the values are collected. -/
def arrayFromFields (i : Nat) : List (GoString × GoValue) → Except DecodeErr (List GoValue)
  | [] => .ok []
  | (name, v) :: rest =>
    if name ≠ itoa i then .error (.invalidArrayIndex name)
    else (arrayFromFields (i + 1) rest).map (v :: ·)

mutual

/-- Modelled from the spec: the field-iteration loop of `RawDocument.decode`
(`wirebson/raw_document.go`) is not under `src/`; §4.D of the spec describes
it: iterate fields until a `0x00` terminator, each field being a tag byte, a
C-string name, and a value decoded by `decodeScalarField` or — for tags
`tagDocument`/`tagArray` — located with `FindRaw` and either kept as a raw
subslice (shallow mode) or decoded recursively (deep mode).  Returns the
decoded fields and the bytes remaining after the terminator.  `fuel` is an
embedding artifact bounding recursion depth; every step consumes at least
one byte, so `len(b) + 2` fuel at top level never runs out. -/
def decodeFields (fuel : Nat) (mode : DecodeMode) (b : Bytes) :
    Except DecodeErr (List (GoString × GoValue) × Bytes) :=
  match fuel with
  | 0 => .error .otherError
  | fuel + 1 =>
    match b with
    | [] => .error .shortInput
    | t :: rest =>
      if t = 0 then .ok ([], rest)
      else
        match DecodeCString rest with
        | .error e => .error e
        | .ok name =>
          let r2 := rest.drop (SizeCString name)
          if t = tagDocument ∨ t = tagArray then
            match FindRaw r2 with
            | .error e => .error e
            | .ok l =>
              let sub := r2.take l
              match mode with
              | .shallow =>
                let v := if t = tagDocument then GoValue.rawDoc sub else GoValue.rawArr sub
                (decodeFields fuel mode (r2.drop l)).map fun p => ((name, v) :: p.1, p.2)
              | .deep =>
                let child : Except DecodeErr GoValue :=
                  if t = tagDocument then
                    (decodeRawDoc fuel .deep sub).map fun fs => GoValue.doc fs false
                  else
                    ((decodeRawDoc fuel .deep sub).bind (arrayFromFields 0)).map
                      fun vals => GoValue.arr vals false
                match child with
                | .error e => .error e
                | .ok v =>
                  (decodeFields fuel mode (r2.drop l)).map fun p => ((name, v) :: p.1, p.2)
          else
            match decodeScalarField t r2 with
            | .error e => .error e
            | .ok (v, size) =>
              (decodeFields fuel mode (r2.drop size)).map fun p => ((name, v) :: p.1, p.2)

/-- Modelled from the spec: `RawDocument.decode` (`wirebson/raw_document.go`)
is not under `src/`; per §4.C/§4.D of the spec it validates the framing with
`FindRaw`, requires the document to take the whole byte slice, decodes the
fields, and finally verifies that consumed bytes equal the declared length
exactly (trailing or missing bytes are invalid-input errors).  The decoded
document is not frozen. -/
def decodeRawDoc (fuel : Nat) (mode : DecodeMode) (b : Bytes) :
    Except DecodeErr (List (GoString × GoValue)) :=
  match fuel with
  | 0 => .error .otherError
  | fuel + 1 =>
    match FindRaw b with
    | .error e => .error e
    | .ok dl =>
      if dl ≠ b.length then .error .invalidInput
      else
        match decodeFields fuel mode (b.drop 4) with
        | .error e => .error e
        | .ok (fields, rem) => if rem = [] then .ok fields else .error .invalidInput

end

/-- `RawDocument.Decode`/`DecodeDeep` entry point on a whole byte slice. -/
def rawDocumentDecode (mode : DecodeMode) (b : Bytes) :
    Except DecodeErr (List (GoString × GoValue)) :=
  decodeRawDoc (b.length + 2) mode b

/-- `RawArray.decode` from the source: decode the bytes as a document, then
enforce that each field name equals its decimal index (`arrayFromFields`). -/
def rawArrayDecode (mode : DecodeMode) (b : Bytes) : Except DecodeErr (List GoValue) :=
  (rawDocumentDecode mode b).bind (arrayFromFields 0)

/-! ## Sizes (`wirebson/size.go`) -/

/-- `sizeScalar` from `wirebson/size.go`.  `none` models the panic of the
`default` branch (which in this source version also covers `UndefinedType`). -/
def sizeScalar : GoValue → Option Nat
  | .float _ => some 8
  | .str s => some (sizeString s)
  | .binData st p => some (sizeBinary st p)
  | .objectID _ => some 12
  | .boolVal _ => some 1
  | .timeVal _ => some 8
  | .null => some 0
  | .regex p o => some (sizeRegex p o)
  | .int32 _ => some 4
  | .timestamp _ => some 8
  | .int64 _ => some 8
  | .decimal128 _ _ => some 16
  | _ => none

mutual

/-- `Size` from `wirebson/size.go`: dispatch on the value kind; raw
composites are already encoded, so their size is their length.  `none`
models the panics for invalid types. -/
def Size : GoValue → Option Nat
  | .doc fields _ => sizeDocument fields
  | .rawDoc b => some b.length
  | .arr values _ => sizeArray values
  | .rawArr b => some b.length
  | v => sizeScalar v

/-- `sizeDocument`: `5 + Σ (1 + SizeCString(name) + Size(value))`. -/
def sizeDocument (fields : List (GoString × GoValue)) : Option Nat :=
  match fields with
  | [] => some 5
  | (name, v) :: rest =>
    match Size v, sizeDocument rest with
    | some sv, some sr => some (1 + SizeCString name + sv + sr)
    | _, _ => none

/-- `sizeArray`: like `sizeDocument` with decimal-index names. -/
def sizeArray (values : List GoValue) : Option Nat :=
  sizeElements 0 values

/-- The summation loop of `sizeArray`, carrying the element index. -/
def sizeElements (i : Nat) (values : List GoValue) : Option Nat :=
  match values with
  | [] => some 5
  | v :: rest =>
    match Size v, sizeElements (i + 1) rest with
    | some sv, some sr => some (1 + SizeCString (itoa i) + sv + sr)
    | _, _ => none

end

/-! ## Encoding (`wirebson/encode.go` and `wirebson/document.go`) -/

/-- `EncodeCString`: the name bytes followed by a `0x00` terminator. -/
def EncodeCString (v : GoString) : Bytes := v ++ [0]

mutual

/-- `encodeField` from `wirebson/encode.go`: for `*Document`, `RawDocument`,
`*Array` and `RawArray` values it writes the tag byte, the C-string name and
the child's encoding.  For every other value the source's `default` branch
writes nothing at all (the call to `encodeScalarField` is commented out
there), so scalar fields produce no bytes.  `none` models an error/panic
propagated from a child's encoding. -/
def encodeField (name : GoString) (v : GoValue) : Option Bytes :=
  match v with
  | .doc fields _ => (documentEncodeFields fields).map
      fun body => tagDocument :: EncodeCString name ++ body
  | .rawDoc b => some (tagDocument :: EncodeCString name ++ b)
  | .arr values _ => (arrayEncodeValues values).map
      fun body => tagArray :: EncodeCString name ++ body
  | .rawArr b => some (tagArray :: EncodeCString name ++ b)
  | _ => some []

/-- The body of `Document.Encode` (`wirebson/document.go`): write the
computed size as 4 little-endian bytes, then each field via `encodeField`,
then the trailing `0x00`.  `none` models the panic raised by `sizeDocument`
on invalid field values. -/
def documentEncodeFields (fields : List (GoString × GoValue)) : Option Bytes :=
  match sizeDocument fields with
  | none => none
  | some size =>
    (encodeFieldList fields).map fun body => putLE 4 size ++ body ++ [0]

/-- The field loop of `Document.Encode`. -/
def encodeFieldList (fields : List (GoString × GoValue)) : Option Bytes :=
  match fields with
  | [] => some []
  | (name, v) :: rest =>
    match encodeField name v, encodeFieldList rest with
    | some fb, some rb => some (fb ++ rb)
    | _, _ => none

/-- Modelled from the spec: an `Array.Encode` returning bytes (the variant
called by `encodeField`) is not under `src/` — both `array.go` versions
write into a caller-provided buffer.  Per §4.D it writes the computed size,
each element as a field named with its decimal index via `encodeField`, and
the trailing `0x00`. -/
def arrayEncodeValues (values : List GoValue) : Option Bytes :=
  match sizeArray values with
  | none => none
  | some size =>
    (encodeElementList 0 values).map fun body => putLE 4 size ++ body ++ [0]

/-- The element loop of `Array.Encode`, carrying the element index. -/
def encodeElementList (i : Nat) (values : List GoValue) : Option Bytes :=
  match values with
  | [] => some []
  | v :: rest =>
    match encodeField (itoa i) v, encodeElementList (i + 1) rest with
    | some fb, some rb => some (fb ++ rb)
    | _, _ => none

end

/-- `Document.Encode` from `wirebson/document.go` (the `frozen` flag plays
no role in encoding). -/
def Document.Encode (d : Document) : Option Bytes :=
  documentEncodeFields d.fields

/-! ## Document mutators (`wirebson/document.go`) -/

/-- Outcome of a Go mutator that can return an error or panic. -/
inductive MutResult where
  | ok (d : Document)
  | err
  | panicked

/-- True exactly for the `err` outcome. -/
def MutResult.isErr : MutResult → Bool
  | .err => true
  | _ => false

/-- True exactly for the `panicked` outcome. -/
def MutResult.isPanicked : MutResult → Bool
  | .panicked => true
  | _ => false

/-- `Document.Add`: first `validBSONType(value)` (an error return), then
`checkFrozen` (a panic), then append the field. -/
def Document.Add (d : Document) (name : GoString) (value : GoValue) : MutResult :=
  if validBSONType value = false then .err
  else if d.frozen then .panicked
  else .ok ⟨d.fields ++ [(name, value)], d.frozen⟩

/-- The loop of `Document.Replace`: set the value of the first field with
the given name; leave the list unchanged if no field matches. -/
def setFirst (name : GoString) (value : GoValue) :
    List (GoString × GoValue) → List (GoString × GoValue)
  | [] => []
  | (n, w) :: rest =>
    if n = name then (n, value) :: rest else (n, w) :: setFirst name value rest

/-- `Document.Replace`: first `validBSONType(value)` (an error return), then
`checkFrozen` (a panic), then replace the first matching field; it does
nothing if the field with that name does not exist. -/
def Document.Replace (d : Document) (name : GoString) (value : GoValue) : MutResult :=
  if validBSONType value = false then .err
  else if d.frozen then .panicked
  else .ok ⟨setFirst name value d.fields, d.frozen⟩

/-! ## Value equality (`wirebson/equal.go`) -/

/-- Outcome of a Go function that can panic. -/
inductive PanicOr (α : Type) where
  | ok (a : α)
  | panicked

/-- True exactly for the `panicked` outcome. -/
def PanicOr.isPanicked : PanicOr α → Bool
  | .panicked => true
  | _ => false

/-- `equalScalars`: type-switch on the first value; a type mismatch is
`false`; floats compare by their `math.Float64bits` bit patterns; times by
instant; `Binary` by subtype and payload bytes; the `UndefinedType` case is
commented out in the source, so it falls into the `default` panic. -/
def equalScalars : GoValue → GoValue → PanicOr Bool
  | .float x, v2 =>
    match v2 with
    | .float y => .ok (decide (x = y))
    | _ => .ok false
  | .str s1, v2 =>
    match v2 with
    | .str s2 => .ok (decide (s1 = s2))
    | _ => .ok false
  | .binData st1 p1, v2 =>
    match v2 with
    | .binData st2 p2 => .ok (decide (st1 = st2) && decide (p1 = p2))
    | _ => .ok false
  | .objectID b1, v2 =>
    match v2 with
    | .objectID b2 => .ok (decide (b1 = b2))
    | _ => .ok false
  | .boolVal v1, v2 =>
    match v2 with
    | .boolVal w => .ok (v1 == w)
    | _ => .ok false
  | .timeVal m1, v2 =>
    match v2 with
    | .timeVal m2 => .ok (decide (m1 = m2))
    | _ => .ok false
  | .null, v2 =>
    match v2 with
    | .null => .ok true
    | _ => .ok false
  | .regex p1 o1, v2 =>
    match v2 with
    | .regex p2 o2 => .ok (decide (p1 = p2) && decide (o1 = o2))
    | _ => .ok false
  | .int32 v1, v2 =>
    match v2 with
    | .int32 w => .ok (decide (v1 = w))
    | _ => .ok false
  | .timestamp v1, v2 =>
    match v2 with
    | .timestamp w => .ok (decide (v1 = w))
    | _ => .ok false
  | .int64 v1, v2 =>
    match v2 with
    | .int64 w => .ok (decide (v1 = w))
    | _ => .ok false
  | .decimal128 h1 l1, v2 =>
    match v2 with
    | .decimal128 h2 l2 => .ok (decide (h1 = h2) && decide (l1 = l2))
    | _ => .ok false
  | _, _ => .panicked

/-- `AnyDocument.Decode()` for the two document shapes: a `*Document`
returns its own fields; a `RawDocument` decodes shallowly. -/
def docDecodeOf : GoValue → Except DecodeErr (List (GoString × GoValue))
  | .doc fields _ => .ok fields
  | .rawDoc b => rawDocumentDecode .shallow b
  | _ => .error .otherError

/-- `AnyArray.Decode()` for the two array shapes. -/
def arrDecodeOf : GoValue → Except DecodeErr (List GoValue)
  | .arr values _ => .ok values
  | .rawArr b => rawArrayDecode .shallow b
  | _ => .error .otherError

mutual

/-- `Equal` from `wirebson/equal.go`, with an explicit recursion bound
`fuel` (an embedding artifact: the Go recursion is bounded by the value
structure; every theorem below supplies ample fuel).  Panics if either
argument is not a valid BSON type; documents compare against documents and
arrays against arrays; everything else goes to `equalScalars`. -/
def equalFuel : Nat → GoValue → GoValue → PanicOr Bool
  | 0, _, _ => .panicked
  | fuel + 1, v1, v2 =>
    if validBSONType v1 = false then .panicked
    else if validBSONType v2 = false then .panicked
    else
      match v1 with
      | .doc _ _ | .rawDoc _ =>
        match v2 with
        | .doc _ _ | .rawDoc _ => equalDocumentsF fuel v1 v2
        | _ => .ok false
      | .arr _ _ | .rawArr _ =>
        match v2 with
        | .arr _ _ | .rawArr _ => equalArraysF fuel v1 v2
        | _ => .ok false
      | _ => equalScalars v1 v2

/-- `equalDocuments`: two raws compare by bytes; otherwise both sides are
decoded (a decoding error panics), lengths are compared, and then the
(name, value) pairs are compared in order. -/
def equalDocumentsF (fuel : Nat) (d1 d2 : GoValue) : PanicOr Bool :=
  match d1, d2 with
  | .rawDoc b1, .rawDoc b2 => .ok (decide (b1 = b2))
  | _, _ =>
    match docDecodeOf d1 with
    | .error _ => .panicked
    | .ok f1 =>
      match docDecodeOf d2 with
      | .error _ => .panicked
      | .ok f2 =>
        if f1.length ≠ f2.length then .ok false
        else equalFieldsF fuel f1 f2

/-- `equalArrays`: two raws compare by bytes; otherwise both sides are
decoded (a decoding error panics), lengths are compared, and then the
values are compared in order. -/
def equalArraysF (fuel : Nat) (a1 a2 : GoValue) : PanicOr Bool :=
  match a1, a2 with
  | .rawArr b1, .rawArr b2 => .ok (decide (b1 = b2))
  | _, _ =>
    match arrDecodeOf a1 with
    | .error _ => .panicked
    | .ok l1 =>
      match arrDecodeOf a2 with
      | .error _ => .panicked
      | .ok l2 =>
        if l1.length ≠ l2.length then .ok false
        else equalValuesF fuel l1 l2

/-- The pairwise field loop of `equalDocuments`. -/
def equalFieldsF (fuel : Nat) :
    List (GoString × GoValue) → List (GoString × GoValue) → PanicOr Bool
  | [], _ => .ok true
  | _ :: _, [] => .ok true
  | (n1, v1) :: r1, (n2, v2) :: r2 =>
    if n1 ≠ n2 then .ok false
    else
      match equalFuel fuel v1 v2 with
      | .panicked => .panicked
      | .ok false => .ok false
      | .ok true => equalFieldsF fuel r1 r2

/-- The pairwise value loop of `equalArrays`. -/
def equalValuesF (fuel : Nat) : List GoValue → List GoValue → PanicOr Bool
  | [], _ => .ok true
  | _ :: _, [] => .ok true
  | v1 :: r1, v2 :: r2 =>
    match equalFuel fuel v1 v2 with
    | .panicked => .panicked
    | .ok false => .ok false
    | .ok true => equalValuesF fuel r1 r2

end

mutual

/-- A structural weight of a value, used only to pick a generous fuel for
`Equal`; raw composites are weighted by their byte length since decoding
them can only produce smaller values. -/
def goWeight : GoValue → Nat
  | .doc fields _ => goWeightFields fields + 1
  | .arr values _ => goWeightValues values + 1
  | .rawDoc b => b.length + 1
  | .rawArr b => b.length + 1
  | _ => 1

/-- Weight of a field list. -/
def goWeightFields : List (GoString × GoValue) → Nat
  | [] => 0
  | (_, v) :: rest => goWeight v + 1 + goWeightFields rest

/-- Weight of a value list. -/
def goWeightValues : List GoValue → Nat
  | [] => 0
  | v :: rest => goWeight v + 1 + goWeightValues rest

end

/-- `Equal` from `wirebson/equal.go` (the public entry point), with fuel
large enough for all uses in this development. -/
def Equal (v1 v2 : GoValue) : PanicOr Bool :=
  equalFuel (goWeight v1 + goWeight v2 + 1) v1 v2

/-! ## OP_MSG sections (`op_msg_section.go`) -/

/-- `OpMsgSection`: wire order is kind, identifier, documents. -/
structure OpMsgSection where
  identifier : GoString
  documents : List Bytes
  kind : Nat

/-- The loop of `checkSections`, carrying the `kind0Found` flag. -/
def checkSectionsLoop (kind0Found : Bool) : List OpMsgSection → Except String Unit
  | [] => .ok ()
  | s :: rest =>
    if s.kind = 0 then
      if kind0Found then .error "multiple kind 0 sections"
      else if s.identifier ≠ [] then .error "kind 0 section has identifier"
      else if s.documents.length ≠ 1 then .error "kind 0 section has bad number of documents"
      else checkSectionsLoop true rest
    else if s.kind = 1 then
      if s.identifier = [] then .error "kind 1 section has no identifier"
      else checkSectionsLoop kind0Found rest
    else .error "unknown kind"

/-- `checkSections` from `op_msg_section.go`: error on an empty list, then
the per-section loop.  Note that the source never checks `kind0Found` after
the loop. -/
def checkSections (sections : List OpMsgSection) : Except String Unit :=
  if sections.length = 0 then .error "no sections"
  else checkSectionsLoop false sections

/-- Per-section validity as checked by the loop: a kind-0 section must have
an empty identifier and exactly one document; a kind-1 section a non-empty
identifier; no other kinds. -/
def sectionOK (s : OpMsgSection) : Bool :=
  (s.kind == 0 && s.identifier == ([] : GoString) && s.documents.length == 1) ||
    (s.kind == 1 && s.identifier != ([] : GoString))

/-! ## Message header (`msg_header.go`) -/

/-- `MsgHeader`: four little-endian `int32` fields. -/
structure MsgHeader where
  messageLength : Int
  requestID : Int
  responseTo : Int
  opCode : Int

/-- `MsgHeaderLen` from `msg_header.go`. -/
def MsgHeaderLen : Nat := 16

/-- `MaxMsgLen` from `msg_header.go`. -/
def MaxMsgLen : Int := 48000000

/-- Outcome of `MsgHeader.readFrom` on a finite byte stream:
`ok` carries the header and the unconsumed rest of the stream;
`zeroRead` is `ErrZeroRead` (the stream was at end-of-stream and zero bytes
were read); `shortRead` is the wrapped `io.ErrUnexpectedEOF` error from a
partial header; `invalidLength` is the "invalid message length" error. -/
inductive ReadHeaderResult where
  | ok (h : MsgHeader) (rest : Bytes)
  | zeroRead
  | shortRead (read : Nat)
  | invalidLength (l : Int)

/-- True exactly for the `ok` outcome. -/
def ReadHeaderResult.isOk : ReadHeaderResult → Bool
  | .ok _ _ => true
  | _ => false

/-- The message length field parsed from the first 4 bytes of a stream. -/
def headerLen (s : Bytes) : Int := toInt32 (leNat (s.take 4))

/-- `MsgHeader.readFrom`: `io.ReadFull` of exactly 16 bytes — reading from
an empty stream yields `io.EOF`, mapped to `ErrZeroRead`; a stream of 1..15
bytes yields a partial-read error; a full header is parsed field by field
and rejected unless `MsgHeaderLen ≤ MessageLength ≤ MaxMsgLen`. -/
def msgHeaderReadFrom (s : Bytes) : ReadHeaderResult :=
  if s.length = 0 then .zeroRead
  else if s.length < 16 then .shortRead s.length
  else if headerLen s < (MsgHeaderLen : Int) ∨ headerLen s > MaxMsgLen then
    .invalidLength (headerLen s)
  else
    .ok ⟨headerLen s, toInt32 (leNat ((s.drop 4).take 4)),
      toInt32 (leNat ((s.drop 8).take 4)), toInt32 (leNat ((s.drop 12).take 4))⟩
      (s.drop 16)

/-! ## Auxiliary predicates and concrete inputs used by the theorems -/

/-- Whether the field names are exactly the decimal indices starting at `i`. -/
def namesAreIndices (i : Nat) : List (GoString × GoValue) → Bool
  | [] => true
  | (name, _) :: rest => name == itoa i && namesAreIndices (i + 1) rest

/-- The 9-byte encoding of the document with the single field `f: true`
(spec scenario 2). -/
def boolDocBytes : Bytes := [0x09, 0, 0, 0, 0x08, 0x66, 0x00, 0x01, 0x00]

/-- The fields of the decoded form of `boolDocBytes`. -/
def boolDocFields : List (GoString × GoValue) := [(gostr "f", .boolVal true)]

/-- A 13-byte document whose two boolean fields are named `0` and `x` —
a valid document whose second field name is not its decimal index. -/
def misnamedArrayBytes : Bytes :=
  [0x0D, 0, 0, 0, 0x08, 0x30, 0x00, 0x01, 0x08, 0x78, 0x00, 0x01, 0x00]

/-- The fields of the decoded form of `misnamedArrayBytes`. -/
def misnamedArrayFields : List (GoString × GoValue) :=
  [(gostr "0", .boolVal true), (gostr "x", .boolVal true)]

/-- A section list with a single kind-1 section (identifier `x`) and no
kind-0 section. -/
def kind1Only : List OpMsgSection := [⟨gostr "x", [], 1⟩]

/-- A valid 16-byte header: length 16, request id 1, response to 0,
opcode 2013 (OP_MSG). -/
def headerBytes16 : Bytes := [16, 0, 0, 0, 1, 0, 0, 0, 0, 0, 0, 0, 0xDD, 0x07, 0, 0]

/-- IEEE-754 bit pattern of `+0.0`. -/
def posZeroBits : Nat := 0

/-- IEEE-754 bit pattern of `-0.0`. -/
def negZeroBits : Nat := 0x8000000000000000

/-- IEEE-754 bit pattern of `+Inf`. -/
def posInfBits : Nat := 0x7FF0000000000000

/-- An IEEE-754 NaN bit pattern (Go's `math.NaN()`). -/
def quietNaNBits : Nat := 0x7FF8000000000001

/-- Whether a 64-bit pattern denotes an IEEE-754 NaN: all exponent bits set
and a non-zero mantissa. -/
def isNaNBits (bits : Nat) : Bool :=
  (bits / 2 ^ 52) % 2 ^ 11 == 0x7FF && bits % 2 ^ 52 != 0

/-! # Theorems -/

/-- Claim C1 (code bug): the bytes→value→bytes round-trip fails.  The
9-byte document with the single boolean field `f` decodes successfully (in
shallow mode), but encoding the decoded document yields only the 5 bytes
`[0x09, 0, 0, 0, 0x00]` — `encodeField`'s scalar branch is commented out in
`wirebson/encode.go`, so every scalar field is silently dropped while the
length prefix still counts it. -/
theorem decode_encode_roundtrip_fails_on_scalar_document :
    rawDocumentDecode .shallow boolDocBytes = .ok boolDocFields ∧
    Document.Encode ⟨boolDocFields, false⟩ = some [0x09, 0, 0, 0, 0] ∧
    some boolDocBytes ≠ some [0x09, 0, 0, 0, 0] := by
  refine ⟨rfl, ?_, by decide⟩
  simp [Document.Encode, documentEncodeFields, encodeFieldList, encodeField,
    sizeDocument, Size, sizeScalar, boolDocFields, SizeCString, gostr, putLE]

/-- Claim C4 (code bug): `Size` and the length of `Document.Encode`
disagree on any document with a scalar field: for the document with the
single boolean field `f`, `Size` is 9 (the structural size, `5 + (1 + 2 +
1)`), but the emitted encoding has only 5 bytes because `encodeField` drops
scalar fields. -/
theorem size_encode_length_mismatch_on_scalar_document :
    Size (GoValue.doc boolDocFields false) = some 9 ∧
    (Document.Encode ⟨boolDocFields, false⟩).map List.length = some 5 ∧
    (9 : Nat) ≠ 5 := by
  refine ⟨?_, ?_, by decide⟩
  · simp [Size, sizeDocument, sizeScalar, boolDocFields, SizeCString, gostr]
  · simp [Document.Encode, documentEncodeFields, encodeFieldList, encodeField,
      sizeDocument, Size, sizeScalar, boolDocFields, SizeCString, gostr, putLE]

/-- Claim C3 (counterexample): decoding a field with tag byte `0x06`
(`Undefined`) does not fail — it succeeds with the `Undefined` scalar and
zero value bytes, contradicting the claim that `0x06` is rejected with an
invalid-input error. -/
theorem decodeScalarField_accepts_undefined :
    decodeScalarField 0x06 [] = .ok (.undefined, 0) := rfl

/-- Claim C3 (amended): for every input byte sequence, decoding a field
whose tag byte is one of `0x0C`, `0x0D`, `0x0E`, `0x0F`, `0xFF`, `0x7F`
fails with an invalid-input "unsupported tag" error; tag `0x06` is decoded
successfully as the `Undefined` scalar (consuming no value bytes); and any
tag outside the recognized set fails as an invalid-input "unexpected tag"
error. -/
theorem decodeScalarField_tag_policy (t : Nat) (b : Bytes) :
    ((t = 0x0C ∨ t = 0x0D ∨ t = 0x0E ∨ t = 0x0F ∨ t = 0xFF ∨ t = 0x7F) →
      decodeScalarField t b = .error (.invalidUnsupportedTag t) ∧
        DecodeErr.isInvalidInput (.invalidUnsupportedTag t) = true) ∧
    decodeScalarField 0x06 b = .ok (.undefined, 0) ∧
    (t ∉ ([0x01, 0x02, 0x03, 0x04, 0x05, 0x06, 0x07, 0x08, 0x09, 0x0A, 0x0B,
        0x0C, 0x0D, 0x0E, 0x0F, 0x10, 0x11, 0x12, 0x13, 0x7F, 0xFF] : List Nat) →
      decodeScalarField t b = .error (.invalidUnexpectedTag t) ∧
        DecodeErr.isInvalidInput (.invalidUnexpectedTag t) = true) := by
  refine ⟨?_, rfl, ?_⟩
  · rintro (rfl | rfl | rfl | rfl | rfl | rfl) <;> exact ⟨rfl, rfl⟩
  · intro hmem
    simp only [List.mem_cons, List.not_mem_nil, not_or, or_false] at hmem
    obtain ⟨h1, h2, h3, h4, h5, h6, h7, h8, h9, h10, h11, h12, h13, h14, h15,
      h16, h17, h18, h19, h20, h21⟩ := hmem
    refine ⟨?_, rfl⟩
    simp only [decodeScalarField, tagFloat64, tagString, tagDocument, tagArray,
      tagBinary, tagUndefined, tagObjectID, tagBool, tagTime, tagNull, tagRegex,
      tagDBPointer, tagJavaScript, tagSymbol, tagJavaScriptScope, tagInt32,
      tagTimestamp, tagInt64, tagDecimal128, tagMinKey, tagMaxKey,
      h1, h2, h3, h4, h5, h6, h7, h8, h9, h10, h11, h12, h13, h14, h15, h16,
      h17, h18, h19, h20, h21, if_false, or_self, if_neg, not_false_eq_true,
      or_false, false_or]

/-- Witness for `decodeScalarField_tag_policy` at tags `0x0C`, `0x06` and
`0x14`. -/
theorem decodeScalarField_tag_policy_witness :
    (decodeScalarField 0x0C [] = .error (.invalidUnsupportedTag 0x0C) ∧
      DecodeErr.isInvalidInput (.invalidUnsupportedTag 0x0C) = true) ∧
    decodeScalarField 0x06 [] = .ok (.undefined, 0) ∧
    (decodeScalarField 0x14 [] = .error (.invalidUnexpectedTag 0x14) ∧
      DecodeErr.isInvalidInput (.invalidUnexpectedTag 0x14) = true) :=
  ⟨(decodeScalarField_tag_policy 0x0C []).1 (by decide),
    (decodeScalarField_tag_policy 0x06 []).2.1,
    (decodeScalarField_tag_policy 0x14 []).2.2 (by decide)⟩

/-- `Except.isOk` is preserved by `Except.map`. -/
theorem except_isOk_map (f : α → β) (e : Except DecodeErr α) :
    (e.map f).isOk = e.isOk := by
  cases e <;> rfl

/-- The index-enforcement loop succeeds exactly when every field name is
its decimal index, and otherwise fails with an `invalidArrayIndex` error. -/
theorem arrayFromFields_ok_iff (fields : List (GoString × GoValue)) : ∀ i : Nat,
    ((arrayFromFields i fields).isOk = namesAreIndices i fields) ∧
    (namesAreIndices i fields = false →
      ∃ name, arrayFromFields i fields = .error (.invalidArrayIndex name)) := by
  induction fields with
  | nil =>
    intro i
    exact ⟨rfl, by intro h; simp [namesAreIndices] at h⟩
  | cons f rest ih =>
    intro i
    obtain ⟨name, v⟩ := f
    by_cases h : name = itoa i
    · have hbeq : (name == itoa i) = true := beq_iff_eq.mpr h
      have hstep : arrayFromFields i ((name, v) :: rest) =
          (arrayFromFields (i + 1) rest).map (v :: ·) := by
        simp [arrayFromFields, h]
      constructor
      · rw [hstep, except_isOk_map, (ih (i + 1)).1]
        simp [namesAreIndices, hbeq]
      · intro hn
        simp only [namesAreIndices, hbeq, Bool.true_and] at hn
        obtain ⟨nm, hnm⟩ := (ih (i + 1)).2 hn
        exact ⟨nm, by rw [hstep, hnm]; rfl⟩
    · have hstep : arrayFromFields i ((name, v) :: rest) =
          .error (.invalidArrayIndex name) := by
        simp [arrayFromFields, h]
      have hbeq : (name == itoa i) = false := beq_eq_false_iff_ne.mpr h
      constructor
      · rw [hstep]
        simp only [namesAreIndices, hbeq, Bool.false_and]
        rfl
      · intro _
        exact ⟨name, hstep⟩

/-- Claim C6 (counterexample): the 13-byte document with boolean fields
named `0` and `x` decodes as a document, and decoding it as an array fails
— but with a plain "invalid array index" error that does not wrap the
`ErrDecodeInvalidInput` sentinel, contradicting the claimed InvalidInput
error kind. -/
theorem rawArrayDecode_bad_index_error_is_not_invalid_input :
    (rawDocumentDecode .shallow misnamedArrayBytes).isOk = true ∧
    rawArrayDecode .shallow misnamedArrayBytes =
      .error (.invalidArrayIndex (gostr "x")) ∧
    DecodeErr.isInvalidInput (.invalidArrayIndex (gostr "x")) = false :=
  ⟨rfl, rfl, rfl⟩

/-- Claim C6 (amended): for every byte sequence that decodes as a BSON
document, decoding it as an array succeeds exactly when every field name
equals the decimal string of its index; otherwise array decoding fails with
a plain "invalid array index" error that does not wrap the
`ErrDecodeInvalidInput` sentinel. -/
theorem rawArrayDecode_ok_iff_index_names (mode : DecodeMode) (b : Bytes)
    (fields : List (GoString × GoValue))
    (h : rawDocumentDecode mode b = .ok fields) :
    ((rawArrayDecode mode b).isOk = true ↔ namesAreIndices 0 fields = true) ∧
    (namesAreIndices 0 fields = false →
      ∃ name, rawArrayDecode mode b = .error (.invalidArrayIndex name) ∧
        DecodeErr.isInvalidInput (.invalidArrayIndex name) = false) := by
  have hb : rawArrayDecode mode b = arrayFromFields 0 fields := by
    simp [rawArrayDecode, h, Except.bind]
  rw [hb]
  refine ⟨by rw [(arrayFromFields_ok_iff fields 0).1], ?_⟩
  intro hn
  obtain ⟨name, hname⟩ := (arrayFromFields_ok_iff fields 0).2 hn
  exact ⟨name, hname, rfl⟩

/-- Witness for `rawArrayDecode_ok_iff_index_names` at the concrete
document with fields named `0` and `x`. -/
theorem rawArrayDecode_ok_iff_index_names_witness :
    (((rawArrayDecode .shallow misnamedArrayBytes).isOk = true ↔
        namesAreIndices 0 misnamedArrayFields = true) ∧
      (namesAreIndices 0 misnamedArrayFields = false →
        ∃ name, rawArrayDecode .shallow misnamedArrayBytes =
            .error (.invalidArrayIndex name) ∧
          DecodeErr.isInvalidInput (.invalidArrayIndex name) = false)) :=
  rawArrayDecode_ok_iff_index_names .shallow misnamedArrayBytes
    misnamedArrayFields rfl

/-- The `checkSections` loop succeeds exactly when every section is valid
(`sectionOK`) and the number of kind-0 sections — counting one already seen
when `kind0Found` is set — is at most one. -/
theorem checkSectionsLoop_ok_iff (l : List OpMsgSection) : ∀ found : Bool,
    (checkSectionsLoop found l = .ok ()) ↔
      (l.all sectionOK = true ∧
        l.countP (fun s => s.kind == 0) + (if found then 1 else 0) ≤ 1) := by
  induction l with
  | nil =>
    intro found
    simp only [checkSectionsLoop, List.all_nil, List.countP_nil, Nat.zero_add]
    cases found <;> simp
  | cons s rest ih =>
    intro found
    simp only [List.all_cons, Bool.and_eq_true, List.countP_cons]
    by_cases h0 : s.kind = 0
    · have hc : (fun s : OpMsgSection => s.kind == 0) s = true := by simp [h0]
      by_cases hid : s.identifier = ([] : GoString)
      · by_cases hdoc : s.documents.length = 1
        · have hsec : sectionOK s = true := by simp [sectionOK, h0, hid, hdoc]
          cases found with
          | false =>
            have hstep : checkSectionsLoop false (s :: rest) =
                checkSectionsLoop true rest := by
              simp [checkSectionsLoop, h0, hid, hdoc]
            rw [hstep, ih true]
            simp [hsec, hc]
          | true =>
            have hstep : checkSectionsLoop true (s :: rest) =
                .error "multiple kind 0 sections" := by
              simp [checkSectionsLoop, h0]
            rw [hstep]
            constructor
            · intro h; simp at h
            · rintro ⟨-, hcount⟩
              simp [hc] at hcount
        · have hstep : checkSectionsLoop found (s :: rest) ≠ .ok () := by
            cases found with
            | false => simp [checkSectionsLoop, h0, hid, hdoc]
            | true => simp [checkSectionsLoop, h0]
          have hsec : sectionOK s = false := by
            simp [sectionOK, h0, hid, hdoc]
          constructor
          · intro h; exact absurd h hstep
          · rintro ⟨⟨hs, -⟩, -⟩; rw [hsec] at hs; simp at hs
      · have hstep : checkSectionsLoop found (s :: rest) ≠ .ok () := by
          cases found with
          | false => simp [checkSectionsLoop, h0, hid]
          | true => simp [checkSectionsLoop, h0]
        have hsec : sectionOK s = false := by
          simp [sectionOK, h0, hid]
        constructor
        · intro h; exact absurd h hstep
        · rintro ⟨⟨hs, -⟩, -⟩; rw [hsec] at hs; simp at hs
    · have hc : (fun s : OpMsgSection => s.kind == 0) s = false := by simp [h0]
      by_cases h1 : s.kind = 1
      · by_cases hid : s.identifier = ([] : GoString)
        · have hstep : checkSectionsLoop found (s :: rest) =
              .error "kind 1 section has no identifier" := by
            simp [checkSectionsLoop, h0, h1, hid]
          have hsec : sectionOK s = false := by
            simp [sectionOK, h0, h1, hid]
          rw [hstep]
          constructor
          · intro h; simp at h
          · rintro ⟨⟨hs, -⟩, -⟩; rw [hsec] at hs; simp at hs
        · have hstep : checkSectionsLoop found (s :: rest) =
              checkSectionsLoop found rest := by
            simp [checkSectionsLoop, h0, h1, hid]
          have hsec : sectionOK s = true := by
            simp [sectionOK, h0, h1, hid]
          rw [hstep, ih found]
          simp [hsec, hc]
      · have hstep : checkSectionsLoop found (s :: rest) =
            .error "unknown kind" := by
          simp [checkSectionsLoop, h0, h1]
        have hsec : sectionOK s = false := by
          simp [sectionOK, h0, h1]
        rw [hstep]
        constructor
        · intro h; simp at h
        · rintro ⟨⟨hs, -⟩, -⟩; rw [hsec] at hs; simp at hs

/-- Claim C2 (counterexample): a section list with a single kind-1 section
and no kind-0 section at all passes `checkSections` — the loop never checks
`kind0Found` after it finishes — contradicting the claim that a list
containing no kind-0 section is rejected. -/
theorem checkSections_accepts_no_kind0 :
    checkSections kind1Only = .ok () ∧
    kind1Only.countP (fun s => s.kind == 0) = 0 :=
  ⟨rfl, rfl⟩

/-- Claim C2 (amended): `checkSections` succeeds exactly when at least one
section exists, at most one section has kind 0, every kind-0 section has an
empty identifier and exactly one document, and every other section has kind
1 with a non-empty identifier.  (A list with no kind-0 section is accepted
when all its sections are valid kind-1 sections.) -/
theorem checkSections_ok_iff (sections : List OpMsgSection) :
    (checkSections sections = .ok ()) ↔
      (sections ≠ [] ∧ sections.all sectionOK = true ∧
        sections.countP (fun s => s.kind == 0) ≤ 1) := by
  unfold checkSections
  by_cases h : sections.length = 0
  · rw [if_pos h]
    have : sections = [] := List.length_eq_zero.mp h
    subst this
    simp
  · rw [if_neg h, checkSectionsLoop_ok_iff]
    have hne : sections ≠ [] := by
      intro hcon; exact h (by rw [hcon]; rfl)
    simp [hne]

/-- Claim C5: reading a message header from a byte stream consumes exactly
16 bytes on success; an empty stream (zero bytes read at end-of-stream)
yields the distinct `ZeroRead` error; a partial header of 1 to 15 bytes
yields a different (short read) error; and a fully read header is accepted
exactly when its length field satisfies `16 ≤ length ≤ 48,000,000`. -/
theorem msgHeaderReadFrom_spec (s : Bytes) :
    (∀ h rest, msgHeaderReadFrom s = .ok h rest →
      rest = s.drop 16 ∧ 16 ≤ s.length ∧ h.messageLength = headerLen s) ∧
    (s.length = 0 → msgHeaderReadFrom s = .zeroRead) ∧
    (1 ≤ s.length → s.length ≤ 15 →
      msgHeaderReadFrom s = .shortRead s.length ∧
        ReadHeaderResult.shortRead s.length ≠ .zeroRead) ∧
    (16 ≤ s.length →
      ((msgHeaderReadFrom s).isOk = true ↔
        ((MsgHeaderLen : Int) ≤ headerLen s ∧ headerLen s ≤ MaxMsgLen))) := by
  by_cases h0 : s.length = 0
  · refine ⟨?_, fun _ => by simp [msgHeaderReadFrom, h0], ?_, ?_⟩
    · intro h rest hok
      rw [msgHeaderReadFrom, if_pos h0] at hok
      cases hok
    · intro h1 _; omega
    · intro h16; omega
  · by_cases hlt : s.length < 16
    · refine ⟨?_, fun hc => absurd hc h0, ?_, ?_⟩
      · intro h rest hok
        rw [msgHeaderReadFrom, if_neg h0, if_pos hlt] at hok
        cases hok
      · intro _ _
        refine ⟨?_, by intro hc; cases hc⟩
        rw [msgHeaderReadFrom, if_neg h0, if_pos hlt]
      · intro h16; omega
    · have h16 : 16 ≤ s.length := by omega
      by_cases hrange : headerLen s < (MsgHeaderLen : Int) ∨ headerLen s > MaxMsgLen
      · have hstep : msgHeaderReadFrom s = .invalidLength (headerLen s) := by
          rw [msgHeaderReadFrom, if_neg h0, if_neg hlt, if_pos hrange]
        refine ⟨?_, fun hc => absurd hc h0, fun h1 h15 => by omega, ?_⟩
        · intro h rest hok
          rw [hstep] at hok
          cases hok
        · intro _
          rw [hstep]
          constructor
          · intro hc; cases hc
          · intro ⟨ha, hb⟩
            rcases hrange with hr | hr <;> omega
      · have hstep : msgHeaderReadFrom s =
            .ok ⟨headerLen s, toInt32 (leNat ((s.drop 4).take 4)),
              toInt32 (leNat ((s.drop 8).take 4)),
              toInt32 (leNat ((s.drop 12).take 4))⟩ (s.drop 16) := by
          rw [msgHeaderReadFrom, if_neg h0, if_neg hlt, if_neg hrange]
        refine ⟨?_, fun hc => absurd hc h0, fun h1 h15 => by omega, ?_⟩
        · intro h rest hok
          rw [hstep] at hok
          cases hok
          exact ⟨rfl, h16, rfl⟩
        · intro _
          rw [hstep]
          simp only [ReadHeaderResult.isOk, true_iff]
          push_neg at hrange
          exact hrange

/-- Witness for `msgHeaderReadFrom_spec`: the empty stream, a 3-byte
partial header, and a full valid 16-byte OP_MSG header. -/
theorem msgHeaderReadFrom_spec_witness :
    msgHeaderReadFrom [] = .zeroRead ∧
    (msgHeaderReadFrom [1, 2, 3] = .shortRead 3 ∧
      ReadHeaderResult.shortRead 3 ≠ .zeroRead) ∧
    ((msgHeaderReadFrom headerBytes16).isOk = true ↔
      ((MsgHeaderLen : Int) ≤ headerLen headerBytes16 ∧
        headerLen headerBytes16 ≤ MaxMsgLen)) :=
  ⟨(msgHeaderReadFrom_spec []).2.1 rfl,
    by
      have := (msgHeaderReadFrom_spec [1, 2, 3]).2.2.1 (by decide) (by decide)
      simpa using this,
    (msgHeaderReadFrom_spec headerBytes16).2.2.2 (by decide)⟩

/-- Claim C7: `Equal` on two floats holds exactly when their IEEE-754 bit
patterns are identical (`math.Float64bits` comparison); in particular
`+0.0` and `-0.0` are not equal, `+Inf` equals `+Inf`, and a NaN equals a
NaN with the same bit pattern. -/
theorem equalFuel_float (fuel : Nat) (x y : Nat) :
    equalFuel (fuel + 1) (.float x) (.float y) = .ok (decide (x = y)) := by
  simp [equalFuel, validBSONType, equalScalars]

/-- Claim C7: `Equal` on two floats holds exactly when their IEEE-754 bit
patterns are identical (`math.Float64bits` comparison); in particular
`+0.0` and `-0.0` are not equal, `+Inf` equals `+Inf`, and a NaN equals a
NaN with the same bit pattern. -/
theorem equal_float_iff_same_bits :
    (∀ x y : Nat, Equal (.float x) (.float y) = .ok (decide (x = y))) ∧
    Equal (.float posZeroBits) (.float negZeroBits) = .ok false ∧
    Equal (.float posInfBits) (.float posInfBits) = .ok true ∧
    Equal (.float quietNaNBits) (.float quietNaNBits) = .ok true ∧
    isNaNBits quietNaNBits = true := by
  have hbase : ∀ x y : Nat, Equal (.float x) (.float y) = .ok (decide (x = y)) := by
    intro x y
    show equalFuel (goWeight (.float x) + goWeight (.float y) + 1) _ _ = _
    exact equalFuel_float _ x y
  refine ⟨hbase, ?_, ?_, ?_, by decide⟩
  · rw [hbase]; norm_num [posZeroBits, negZeroBits]
  · rw [hbase]; norm_num
  · rw [hbase]; norm_num

/-- Claim C8: `Document.Add` on a frozen document checks the value type
before the frozen flag — an invalid value type yields an error return (no
panic), while a valid value type panics on the frozen document. -/
theorem document_add_frozen_order (d : Document) (name : GoString) (v : GoValue)
    (hf : d.frozen = true) :
    (validBSONType v = false →
      Document.Add d name v = .err ∧ (Document.Add d name v).isPanicked = false) ∧
    (validBSONType v = true → Document.Add d name v = .panicked) := by
  constructor
  · intro hv
    have : Document.Add d name v = .err := by simp [Document.Add, hv]
    exact ⟨this, by rw [this]; rfl⟩
  · intro hv
    simp [Document.Add, hv, hf]

/-- Witness for `document_add_frozen_order` on the empty frozen document:
an invalid value gives an error without panicking, a valid (`Null`) value
panics. -/
theorem document_add_frozen_order_witness :
    (Document.Add ⟨[], true⟩ [] (.invalid "int") = .err ∧
      (Document.Add ⟨[], true⟩ [] (.invalid "int")).isPanicked = false) ∧
    Document.Add ⟨[], true⟩ [] .null = .panicked :=
  ⟨(document_add_frozen_order ⟨[], true⟩ [] (.invalid "int") rfl).1 rfl,
    (document_add_frozen_order ⟨[], true⟩ [] .null rfl).2 rfl⟩

/-- `setFirst` leaves the field list unchanged when no field has the given
name. -/
theorem setFirst_absent (name : GoString) (v : GoValue) :
    ∀ fields : List (GoString × GoValue),
      ¬ name ∈ fields.map Prod.fst → setFirst name v fields = fields := by
  intro fields
  induction fields with
  | nil => intro _; rfl
  | cons f rest ih =>
    intro h
    obtain ⟨n, w⟩ := f
    simp only [List.map_cons, List.mem_cons, not_or] at h
    obtain ⟨h1, h2⟩ := h
    have : ¬ n = name := fun hc => h1 hc.symm
    simp [setFirst, this, ih h2]

/-- Claim C9: `Document.Replace` with a valid value on a non-frozen
document whose fields do not contain the given name returns success and
leaves the document completely unchanged. -/
theorem document_replace_absent_noop (d : Document) (name : GoString) (v : GoValue)
    (hf : d.frozen = false) (hv : validBSONType v = true)
    (hn : ¬ name ∈ d.fields.map Prod.fst) :
    Document.Replace d name v = .ok d := by
  obtain ⟨fields, frozen⟩ := d
  have hf' : frozen = false := hf
  subst hf'
  have hset : setFirst name v fields = fields := setFirst_absent name v fields hn
  simp [Document.Replace, hv, hset]

/-- Witness for `document_replace_absent_noop`: replacing the absent name
`b` in the one-field document `a: null` changes nothing. -/
theorem document_replace_absent_noop_witness :
    Document.Replace ⟨[(gostr "a", .null)], false⟩ (gostr "b") (.int32 1) =
      .ok ⟨[(gostr "a", .null)], false⟩ :=
  document_replace_absent_noop ⟨[(gostr "a", .null)], false⟩ (gostr "b")
    (.int32 1) rfl rfl (by decide)

/-- At any positive fuel, `Equal` panics when its first argument is not a
valid BSON type. -/
theorem equalFuel_invalid_left (fuel : Nat) (v1 v2 : GoValue)
    (h : validBSONType v1 = false) : equalFuel (fuel + 1) v1 v2 = .panicked := by
  unfold equalFuel
  simp [h]

/-- At any positive fuel, `Equal` panics when its second argument is not a
valid BSON type. -/
theorem equalFuel_invalid_right (fuel : Nat) (v1 v2 : GoValue)
    (h1 : validBSONType v1 = true) (h2 : validBSONType v2 = false) :
    equalFuel (fuel + 1) v1 v2 = .panicked := by
  unfold equalFuel
  simp [h1, h2]

/-- At any positive fuel, comparing a raw document that fails to decode
with a decoded document panics. -/
theorem equalFuel_rawdoc_decode_panics (fuel : Nat) (b : Bytes)
    (fields : List (GoString × GoValue)) (fz : Bool)
    (h : (rawDocumentDecode .shallow b).isOk = false) :
    equalFuel (fuel + 1) (.rawDoc b) (.doc fields fz) = .panicked := by
  cases hd : rawDocumentDecode .shallow b with
  | ok fs => rw [hd] at h; exact Bool.noConfusion h
  | error e =>
    simp [equalFuel, validBSONType, equalDocumentsF, docDecodeOf, hd]

/-- At any positive fuel, comparing a raw array that fails to decode with a
decoded array panics. -/
theorem equalFuel_rawarr_decode_panics (fuel : Nat) (b : Bytes)
    (values : List GoValue) (fz : Bool)
    (h : (rawArrayDecode .shallow b).isOk = false) :
    equalFuel (fuel + 1) (.rawArr b) (.arr values fz) = .panicked := by
  cases hd : rawArrayDecode .shallow b with
  | ok vs => rw [hd] at h; exact Bool.noConfusion h
  | error e =>
    simp [equalFuel, validBSONType, equalArraysF, arrDecodeOf, hd]

/-- Claim C10: `Equal` panics (instead of returning a result) when either
argument is not a valid BSON type, and when a raw document or raw array
argument that must be decoded for the comparison fails to decode. -/
theorem equal_panics_spec :
    (∀ v1 v2 : GoValue, validBSONType v1 = false → Equal v1 v2 = .panicked) ∧
    (∀ v1 v2 : GoValue, validBSONType v1 = true → validBSONType v2 = false →
      Equal v1 v2 = .panicked) ∧
    (∀ (b : Bytes) (fields : List (GoString × GoValue)) (fz : Bool),
      (rawDocumentDecode .shallow b).isOk = false →
      Equal (.rawDoc b) (.doc fields fz) = .panicked) ∧
    (∀ (b : Bytes) (values : List GoValue) (fz : Bool),
      (rawArrayDecode .shallow b).isOk = false →
      Equal (.rawArr b) (.arr values fz) = .panicked) := by
  refine ⟨?_, ?_, ?_, ?_⟩
  · intro v1 v2 h
    show equalFuel (goWeight v1 + goWeight v2 + 1) v1 v2 = _
    exact equalFuel_invalid_left _ v1 v2 h
  · intro v1 v2 h1 h2
    show equalFuel (goWeight v1 + goWeight v2 + 1) v1 v2 = _
    exact equalFuel_invalid_right _ v1 v2 h1 h2
  · intro b fields fz h
    show equalFuel (goWeight (.rawDoc b) + goWeight (.doc fields fz) + 1) _ _ = _
    exact equalFuel_rawdoc_decode_panics _ b fields fz h
  · intro b values fz h
    show equalFuel (goWeight (.rawArr b) + goWeight (.arr values fz) + 1) _ _ = _
    exact equalFuel_rawarr_decode_panics _ b values fz h

/-- Witness for `equal_panics_spec`: an out-of-universe value in either
position, and empty (undecodable) raw composites compared against decoded
ones. -/
theorem equal_panics_spec_witness :
    Equal (.invalid "int") .null = .panicked ∧
    Equal .null (.invalid "int") = .panicked ∧
    Equal (.rawDoc []) (.doc [] false) = .panicked ∧
    Equal (.rawArr []) (.arr [] false) = .panicked :=
  ⟨equal_panics_spec.1 (.invalid "int") .null rfl,
    equal_panics_spec.2.1 .null (.invalid "int") rfl rfl,
    equal_panics_spec.2.2.1 [] [] false rfl,
    equal_panics_spec.2.2.2 [] [] false rfl⟩
